import Mathlib

/-!
# Verification of the mcp_builder core (ingestion crawler and blueprint orchestrator)

Shallow embedding of the files `orchestration/llm.py`, `orchestration/models.py`
and `ingestion/downloader.py` of the mcp_builder repository, with theorems
settling claims about its natural-language specification.

Modelling conventions:
* Python strings are Lean strings, manipulated as lists of characters.
* Python exceptions are `Except String`; a function that cannot raise is total.
* Regular-expression behaviour of the `re` module (left-to-right scan,
  leftmost match, ordered alternation, greedy repetition) is implemented
  directly for the two concrete patterns occurring in the source.
* External collaborators (the network, the URL parser, the HTML parser) are
  parameters of the crawler model; patterns given to `re.fullmatch` are
  modelled by their full-match denotations `String → Bool`.
-/

namespace MCPBuilder

/-! ## Data model (orchestration/models.py) -/

/-- Structure `EndpointSpec` from orchestration/models.py: an API endpoint to be wrapped. -/
structure EndpointSpec where
  name : String
  method : String
  path : String
  description : String
deriving DecidableEq, Repr

/-- Structure `Blueprint` from orchestration/models.py: full blueprint for an MCP server. -/
structure Blueprint where
  name : String
  summary : String
  endpoints : List EndpointSpec := []
  prerequisites : List String := []
deriving DecidableEq, Repr

/-- Constant `DEFAULT_BLUEPRINT_NAME` from orchestration/models.py. -/
def DEFAULT_BLUEPRINT_NAME : String := "GeneratedMCPServer"

/-! ## slugify (orchestration/llm.py, lines 118-124)

Python `value.lower()` is modelled characterwise by `Char.toLower` (exact on
ASCII; a non-ASCII character is outside the class a-z0-9 both before and after
lowering, so the resulting slug is unaffected). -/

/-- Characters matched by the regex class a-z0-9. -/
def isLowerAlnum (c : Char) : Bool :=
  (('a' ≤ c) && (c ≤ 'z')) || (('0' ≤ c) && (c ≤ '9'))

/-- Helper for `subNonAlnum`: the flag records whether the previous character
was part of a run already replaced by an underscore. -/
def subNonAlnumAux : Bool → List Char → List Char
  | _, [] => []
  | inRun, c :: rest =>
    if isLowerAlnum c then c :: subNonAlnumAux false rest
    else if inRun then subNonAlnumAux true rest
    else '_' :: subNonAlnumAux true rest

/-- First substitution in `slugify`: replace every maximal run of characters
outside the class a-z0-9 by a single underscore. -/
def subNonAlnum (l : List Char) : List Char := subNonAlnumAux false l

/-- Helper for `collapseUnderscores`: the flag records whether the previous
character was an underscore already emitted. -/
def collapseUnderscoresAux : Bool → List Char → List Char
  | _, [] => []
  | prev, c :: rest =>
    if c = '_' then
      if prev then collapseUnderscoresAux true rest
      else '_' :: collapseUnderscoresAux true rest
    else c :: collapseUnderscoresAux false rest

/-- Second substitution in `slugify`: collapse every maximal run of
underscores to a single underscore. -/
def collapseUnderscores (l : List Char) : List Char := collapseUnderscoresAux false l

/-- Python `str.strip` with argument underscore: drop leading and trailing
underscores. -/
def stripUnderscores (l : List Char) : List Char :=
  ((l.dropWhile (fun c => c = '_')).reverse.dropWhile (fun c => c = '_')).reverse

/-- Function `slugify` from orchestration/llm.py: lowercase, substitute
non-alphanumeric runs, collapse underscore runs, strip underscores, with the
fallback `"endpoint"` for an empty result. -/
def slugify (value : String) : String :=
  let v := value.toList.map Char.toLower
  let v := subNonAlnum v
  let v := stripUnderscores (collapseUnderscores v)
  if v = [] then "endpoint" else String.mk v

/-- The specification's description of `slugify` (spec §4.2): lowercase the
input; replace every run of characters outside the class a-z0-9 with a single
underscore; strip leading and trailing underscores; literal `"endpoint"` when
empty.  No underscore-collapsing pass appears in this description. -/
def slugify_spec (value : String) : String :=
  let v := stripUnderscores (subNonAlnum (value.toList.map Char.toLower))
  if v = [] then "endpoint" else String.mk v

/-! ## extract_endpoints (orchestration/llm.py, lines 104-115)

The source pattern is the alternation of the seven HTTP method literals,
then one or more whitespace characters, then a slash followed by a run of
word characters, dashes, slashes, braces, dots and colons, compiled with
IGNORECASE and scanned by finditer.  No method literal extends another at
the same position, so ordered alternation picks the unique literal matching
there; the greedy whitespace repetition followed by the mandatory slash is
equivalent to the maximal whitespace run followed by a slash (whitespace is
never a slash, so backtracking cannot succeed); the greedy path class takes
the maximal run of path characters. -/

/-- ASCII model of the regex whitespace class. -/
def isPySpace (c : Char) : Bool :=
  c = ' ' || c = '\t' || c = '\n' || c = '\r' || c = '\x0b' || c = '\x0c'

/-- ASCII model of the path character class of the endpoint regex: word
characters, dash, slash, braces, dot, colon. -/
def isPathChar (c : Char) : Bool :=
  c.isAlphanum || c = '_' || c = '-' || c = '/' || c = '\x7b' || c = '\x7d' || c = '.' || c = ':'

/-- Case-insensitive literal match at the head of the input; returns the
matched source characters (original casing) and the remainder. -/
def ciMatch : List Char → List Char → Option (List Char × List Char)
  | [], s => some ([], s)
  | _ :: _, [] => none
  | p :: ps, c :: cs =>
    if c.toUpper = p then (ciMatch ps cs).map (fun mr => (c :: mr.1, mr.2))
    else none

/-- The HTTP-method alternatives, in the alternation order of the source regex. -/
def methodLiterals : List (List Char) :=
  ["GET", "POST", "PUT", "PATCH", "DELETE", "OPTIONS", "HEAD"].map String.toList

/-- First alternative of the method group matching at the head of the input. -/
def firstMethodMatch : List (List Char) → List Char → Option (List Char × List Char)
  | [], _ => none
  | p :: ps, s =>
    match ciMatch p s with
    | some mr => some mr
    | none => firstMethodMatch ps s

/-- Try the endpoint regex at the head of the input; on success, return the
matched method text, the matched path text, and the rest of the input after
the whole match. -/
def tryMatchAt (s : List Char) : Option (List Char × List Char × List Char) :=
  match firstMethodMatch methodLiterals s with
  | none => none
  | some (m, afterM) =>
    let rest := afterM.dropWhile isPySpace
    if rest.length = afterM.length then none
    else
      match rest with
      | '/' :: afterSlash =>
        let p := afterSlash.takeWhile isPathChar
        some (m, '/' :: p, afterSlash.drop p.length)
      | _ => none

/-- The finditer scan: left to right, advancing one character on failure and
to the match end on success.  The fuel starts at the input length; a
successful match consumes at least five characters, so fuel never runs out. -/
def findEndpointMatches : Nat → List Char → List (List Char × List Char)
  | 0, _ => []
  | _ + 1, [] => []
  | fuel + 1, c :: rest =>
    match tryMatchAt (c :: rest) with
    | some (m, p, after) => (m, p) :: findEndpointMatches fuel after
    | none => findEndpointMatches fuel rest

/-- Function `extract_endpoints` from orchestration/llm.py: regex scan, method
uppercased, name slugified from the method and path, templated description. -/
def extract_endpoints (text : String) : List EndpointSpec :=
  (findEndpointMatches text.toList.length text.toList).map fun mp =>
    let method := String.mk (mp.1.map Char.toUpper)
    let path := String.mk mp.2
    { name := slugify (method ++ " " ++ path)
      method := method
      path := path
      description := "Auto-detected endpoint for " ++ method ++ " " ++ path }

/-! ## JSON (model of json.loads, used by the remote client's response parser)

A JSON value; numeric literals are kept as their lexemes (the claims never
compare numeric values). -/

/-- JSON values as decoded by json.loads, with numbers kept as lexemes. -/
inductive Json where
  | null
  | bool (b : Bool)
  | num (lexeme : String)
  | str (s : String)
  | arr (elements : List Json)
  | obj (members : List (String × Json))
deriving Repr

/-- Whitespace skipped by the JSON decoder. -/
def jsonWs (c : Char) : Bool := c = ' ' || c = '\t' || c = '\n' || c = '\r'

/-- Drop leading JSON whitespace. -/
def skipWs (s : List Char) : List Char := s.dropWhile jsonWs

/-- Hexadecimal digit test for unicode escapes. -/
def isHexDigitChar (c : Char) : Bool :=
  c.isDigit || (('a' ≤ c) && (c ≤ 'f')) || (('A' ≤ c) && (c ≤ 'F'))

/-- Value of a hexadecimal digit. -/
def hexVal (c : Char) : Nat :=
  if c.isDigit then c.toNat - '0'.toNat
  else if ('a' ≤ c) && (c ≤ 'f') then c.toNat - 'a'.toNat + 10
  else c.toNat - 'A'.toNat + 10

/-- Parse the body of a JSON string after the opening quote, returning the
decoded characters and the input after the closing quote.  Raw control
characters are rejected as in the decoder's strict mode. -/
def parseStringBody : Nat → List Char → Option (List Char × List Char)
  | 0, _ => none
  | _ + 1, [] => none
  | fuel + 1, c :: cs =>
    if c = '"' then some ([], cs)
    else if c = '\\' then
      match cs with
      | [] => none
      | e :: cs2 =>
        if e = 'u' then
          match cs2 with
          | h1 :: h2 :: h3 :: h4 :: cs3 =>
            if isHexDigitChar h1 && isHexDigitChar h2 && isHexDigitChar h3 && isHexDigitChar h4 then
              (parseStringBody fuel cs3).map fun br =>
                (Char.ofNat (((hexVal h1 * 16 + hexVal h2) * 16 + hexVal h3) * 16 + hexVal h4) :: br.1, br.2)
            else none
          | _ => none
        else
          let dec : Option Char :=
            if e = '"' then some '"' else if e = '\\' then some '\\'
            else if e = '/' then some '/' else if e = 'b' then some '\x08'
            else if e = 'f' then some '\x0c' else if e = 'n' then some '\n'
            else if e = 'r' then some '\r' else if e = 't' then some '\t' else none
          match dec with
          | none => none
          | some d => (parseStringBody fuel cs2).map fun br => (d :: br.1, br.2)
    else if c.toNat < 32 then none
    else (parseStringBody fuel cs).map fun br => (c :: br.1, br.2)

/-- Parse a JSON numeric literal at the head of the input, returning its
lexeme and the remaining input; mirrors the decoder's number regex, which
matches greedily and leaves trailing garbage to the caller. -/
def parseNumber (s : List Char) : Option (List Char × List Char) :=
  let sign : List Char := if s.head? = some '-' then ['-'] else []
  let s1 := s.drop sign.length
  let int : List Char :=
    if s1.head? = some '0' then ['0'] else s1.takeWhile Char.isDigit
  if int.isEmpty then none
  else
    let s2 := s1.drop int.length
    let fracRest : List Char × List Char :=
      match s2 with
      | '.' :: t =>
        let ds := t.takeWhile Char.isDigit
        if ds.isEmpty then ([], s2) else ('.' :: ds, t.drop ds.length)
      | _ => ([], s2)
    let s3 := fracRest.2
    let expRest : List Char × List Char :=
      match s3 with
      | e :: t =>
        if e = 'e' || e = 'E' then
          let sgnT : List Char × List Char :=
            match t with
            | c :: t2 => if c = '+' || c = '-' then ([c], t2) else ([], t)
            | [] => ([], t)
          let ds := sgnT.2.takeWhile Char.isDigit
          if ds.isEmpty then ([], s3) else (e :: (sgnT.1 ++ ds), sgnT.2.drop ds.length)
        else ([], s3)
      | [] => ([], s3)
    some (sign ++ int ++ fracRest.1 ++ expRest.1, expRest.2)

mutual

/-- Parse one JSON value at the head of a whitespace-skipped input. -/
def parseValue : Nat → List Char → Option (Json × List Char)
  | 0, _ => none
  | fuel + 1, s =>
    match s with
    | [] => none
    | '\x7b' :: t =>
      match skipWs t with
      | '\x7d' :: t2 => some (.obj [], t2)
      | t1 => (parseMembers fuel t1).map fun mr => (Json.obj mr.1, mr.2)
    | '[' :: t =>
      match skipWs t with
      | ']' :: t2 => some (.arr [], t2)
      | t1 => (parseElements fuel t1).map fun er => (Json.arr er.1, er.2)
    | '"' :: t => (parseStringBody (t.length + 1) t).map fun br => (Json.str (String.mk br.1), br.2)
    | 't' :: t => if t.take 3 = ['r', 'u', 'e'] then some (.bool true, t.drop 3) else none
    | 'f' :: t => if t.take 4 = ['a', 'l', 's', 'e'] then some (.bool false, t.drop 4) else none
    | 'n' :: t => if t.take 3 = ['u', 'l', 'l'] then some (.null, t.drop 3) else none
    | _ => (parseNumber s).map fun nr => (Json.num (String.mk nr.1), nr.2)

/-- Parse the members of a JSON object after the opening brace and leading
whitespace, up to and including the closing brace. -/
def parseMembers : Nat → List Char → Option (List (String × Json) × List Char)
  | 0, _ => none
  | fuel + 1, s =>
    match s with
    | '"' :: t =>
      match parseStringBody (t.length + 1) t with
      | none => none
      | some (key, r1) =>
        match skipWs r1 with
        | ':' :: r2 =>
          match parseValue fuel (skipWs r2) with
          | none => none
          | some (v, r3) =>
            match skipWs r3 with
            | ',' :: r4 =>
              (parseMembers fuel (skipWs r4)).map fun mr => ((String.mk key, v) :: mr.1, mr.2)
            | '\x7d' :: r4 => some ([(String.mk key, v)], r4)
            | _ => none
        | _ => none
    | _ => none

/-- Parse the elements of a JSON array after the opening bracket and leading
whitespace, up to and including the closing bracket. -/
def parseElements : Nat → List Char → Option (List Json × List Char)
  | 0, _ => none
  | fuel + 1, s =>
    match parseValue fuel s with
    | none => none
    | some (v, r1) =>
      match skipWs r1 with
      | ',' :: r2 => (parseElements fuel (skipWs r2)).map fun er => (v :: er.1, er.2)
      | ']' :: r2 => some ([v], r2)
      | _ => none

end

/-- Model of json.loads: skip whitespace, parse one value, require only
whitespace afterwards.  Every fuel-decrementing call is preceded by at least
one consumed character, so the initial fuel of length plus one never runs
out. -/
def json_loads (text : String) : Except String Json :=
  match parseValue (text.toList.length + 1) (skipWs text.toList) with
  | none => .error "Expecting value"
  | some (v, rest) => if skipWs rest = [] then .ok v else .error "Extra data"

/-- Lookup in the dict built from a JSON object: on duplicate keys the last
binding wins, as in the Python decoder. -/
def objGet (members : List (String × Json)) (key : String) : Option Json :=
  (members.reverse.find? fun kv => kv.1 = key).map Prod.snd

/-- Whether a JSON numeric literal denotes zero: true iff every digit of its
mantissa is zero. -/
def numIsZero (lexeme : String) : Bool :=
  ((lexeme.toList.takeWhile fun c => c ≠ 'e' && c ≠ 'E').filter Char.isDigit).all fun c => c = '0'

/-- Python truthiness of a JSON-decoded value. -/
def truthy : Json → Bool
  | .null => false
  | .bool b => b
  | .num lex => !numIsZero lex
  | .str s => !s.isEmpty
  | .arr es => !es.isEmpty
  | .obj ms => !ms.isEmpty

/-- Python str() applied to a JSON-decoded value: exact for strings, booleans,
null and integer literals; approximated by the lexeme for float literals and
by a fixed rendering for containers (the claims exercise none of the
approximated cases). -/
def pyStr : Json → String
  | .null => "None"
  | .bool true => "True"
  | .bool false => "False"
  | .num lex => lex
  | .str s => s
  | .arr _ => "[...]"
  | .obj _ => "\x7b...\x7d"

/-! ## blueprint_from_dict and the remote client's response parser
(orchestration/llm.py, lines 46-51 and 127-143) -/

/-- Python `data.get(key) or default` for a string-valued field: the default
replaces a missing key and any falsy value; a present truthy value is
expected to be a string (a non-string truthy value, which Python would store
untyped, is not modelled and reported as an error). -/
def getStrOrDefault (members : List (String × Json)) (key default : String) :
    Except String String :=
  match objGet members key with
  | none => .ok default
  | some v =>
    if truthy v then
      match v with
      | .str s => .ok s
      | _ => .error "non-string field value not modelled"
    else .ok default

/-- One element of the endpoints list in `blueprint_from_dict`: dict.get with
a default for each field, the default name being the slug of the method and
path (themselves defaulted to get and slash inside the f-string). -/
def endpoint_from_item : Json → Except String EndpointSpec
  | .obj f => do
    let name ← match objGet f "name" with
      | none =>
        pure (slugify (pyStr ((objGet f "method").getD (.str "get")) ++ " " ++
          pyStr ((objGet f "path").getD (.str "/"))))
      | some (.str s) => pure s
      | some _ => Except.error "non-string name not modelled"
    let method ← match objGet f "method" with
      | none => pure "GET"
      | some (.str s) => pure s
      | some _ => Except.error "non-string method not modelled"
    let path ← match objGet f "path" with
      | none => pure "/"
      | some (.str s) => pure s
      | some _ => Except.error "non-string path not modelled"
    let descr ← match objGet f "description" with
      | none => pure ""
      | some (.str s) => pure s
      | some _ => Except.error "non-string description not modelled"
    pure { name := name, method := method, path := path, description := descr }
  | _ => .error "endpoint item is not an object"

/-- The prerequisites comprehension: str() of every element of the value of
the prerequisites key, empty for a missing key; iterating a string yields its
characters and iterating a dict yields its keys, as in Python. -/
def prerequisites_from (members : List (String × Json)) : Except String (List String) :=
  match objGet members "prerequisites" with
  | none => .ok []
  | some (.arr items) => .ok (items.map pyStr)
  | some (.str s) => .ok (s.toList.map fun c => String.mk [c])
  | some (.obj ms) => .ok (ms.map Prod.fst)
  | some _ => .error "prerequisites is not iterable"

/-- Function `blueprint_from_dict` from orchestration/llm.py: convert a
JSON-like dictionary to a Blueprint, with defaults for missing fields.
Failures (payload not a dict, endpoints not a list, and the unmodelled
dynamic-typing cases) are Python exceptions propagating to the caller. -/
def blueprint_from_dict : Json → Except String Blueprint
  | .obj members => do
    let name ← getStrOrDefault members "name" DEFAULT_BLUEPRINT_NAME
    let summary ← getStrOrDefault members "summary" "Generated MCP server"
    let endpoints ← match objGet members "endpoints" with
      | none => pure []
      | some (.arr items) => items.mapM endpoint_from_item
      | some _ => Except.error "endpoints is not a list"
    let prereqs ← prerequisites_from members
    pure { name := name, summary := summary, endpoints := endpoints, prerequisites := prereqs }
  | _ => .error "payload is not an object"

/-- Method `OpenAILLMClient._parse_response` from orchestration/llm.py: decode
the response text as JSON, raising a ValueError that carries the decode error
when the text is not valid JSON, and convert the result to a Blueprint. -/
def parse_response (text : String) : Except String Blueprint :=
  match json_loads text with
  | .error e => .error ("Model response is not valid JSON: " ++ e)
  | .ok data => blueprint_from_dict data

/-! ## The orchestrator (orchestration/llm.py, lines 54-101) -/

/-- A generation strategy: the `generate_blueprint` method of an LLMClient,
which may raise. -/
abbrev GenerationStrategy := String → Except String Blueprint

/-- Method `HeuristicLLMClient.generate_blueprint`: heuristic endpoint
extraction over the prompt; it cannot raise. -/
def HeuristicLLMClient_generate (name : String) (prompt : String) : Blueprint :=
  { name := name
    summary := "Heuristically generated MCP server blueprint"
    endpoints := extract_endpoints prompt
    prerequisites := [] }

/-- The instruction preamble of `LLMOrchestrator._build_prompt`. -/
def PROMPT_PREAMBLE : String :=
  "You are an expert software engineer building Model Context Protocol (MCP) servers. " ++
  "Given the following API documentation, extract the key REST endpoints and return a JSON " ++
  "object with the fields: name (string), summary (string), endpoints (list of \x7bname, method, path, description\x7d), " ++
  "and prerequisites (list of strings describing required auth or setup)."

/-- Method `LLMOrchestrator._build_prompt`: preamble, optional title line
(skipped for a falsy title, i.e. absent or empty), then the documents joined
by blank lines. -/
def build_prompt (documents : List String) (title : Option String) : String :=
  let joined := String.intercalate "\n\n" documents
  let prompt := PROMPT_PREAMBLE
  let prompt :=
    match title with
    | some t => if t = "" then prompt else prompt ++ "\nDocumentation title: " ++ t
    | none => prompt
  prompt ++ "\n\nDocumentation:\n" ++ joined

/-- The synthetic endpoint appended by `build_blueprint` when the generated
endpoint list is empty. -/
def healthCheckEndpoint : EndpointSpec :=
  { name := "health_check"
    method := "GET"
    path := "/"
    description := "Fallback endpoint returning API availability information." }

/-- The try/except part of `LLMOrchestrator.build_blueprint`: the primary
strategy's result, or on any exception the fallback
`HeuristicLLMClient().generate_blueprint(prompt)` on the same prompt. -/
def generated_blueprint (client : GenerationStrategy) (prompt : String) : Blueprint :=
  match client prompt with
  | .ok b => b
  | .error _ => HeuristicLLMClient_generate DEFAULT_BLUEPRINT_NAME prompt

/-- Method `LLMOrchestrator.build_blueprint`: build the prompt, generate with
fallback, and append the health-check endpoint when the endpoint list is
empty.  Totality of this function is the no-visible-failure property. -/
def build_blueprint (client : GenerationStrategy) (documents : List String)
    (title : Option String) : Blueprint :=
  let prompt := build_prompt documents title
  let blueprint := generated_blueprint client prompt
  if blueprint.endpoints.isEmpty then
    { blueprint with endpoints := blueprint.endpoints ++ [healthCheckEndpoint] }
  else blueprint

/-- The two LLMClient implementations of orchestration/llm.py, tagged with
their constructor arguments. -/
inductive LLMClientImpl where
  | openai (model : String)
  | heuristic (name : String)
deriving DecidableEq, Repr

/-- Whether a client implementation is the remote (OpenAI) generation client. -/
def LLMClientImpl.isRemote : LLMClientImpl → Bool
  | .openai _ => true
  | .heuristic _ => false

/-- Client selection in `LLMOrchestrator.__init__`:
`llm_client or HeuristicLLMClient()` — the injected client when given (an
object is always truthy), otherwise a fresh heuristic client with the default
blueprint name. -/
def LLMOrchestrator_client (llm_client : Option LLMClientImpl) : LLMClientImpl :=
  llm_client.getD (.heuristic DEFAULT_BLUEPRINT_NAME)

/-! ## Ingestion data model (ingestion/models.py) -/

/-- Structure `Document` from ingestion/models.py: a crawled document. -/
structure Document where
  url : String
  content : String
  content_type : String
  metadata : List (String × String) := []
  title : Option String := none
deriving DecidableEq, Repr

/-- Structure `Corpus` from ingestion/models.py: a collection of documents. -/
structure Corpus where
  documents : List Document
deriving DecidableEq, Repr

/-! ## The documentation crawler (ingestion/downloader.py)

External collaborators are parameters: the URL parser is a function giving a
URL's netloc, the network is a function from URL to an optional response
(absent on any transport failure or non-success status, the cases where the
source's try/except continues the loop), and BeautifulSoup is a pair of
functions giving a page's title with visible text and its resolved anchor
targets.  Patterns handed to re.fullmatch are modelled by their full-match
denotations `String → Bool`. -/

/-- Structure `CrawlConfig` from ingestion/downloader.py, with its defaults;
the default allow list holds the match-everything pattern. -/
structure CrawlConfig where
  max_pages : Nat := 20
  timeout : Nat := 10
  user_agent : String := "mcp-builder/0.1"
  allow_patterns : List (String → Bool) := [fun _ => true]
  deny_patterns : List (String → Bool) := []

/-- An HTTP response that passed raise_for_status: the Content-Type header
(absent when the server sent none) and the body text. -/
structure HttpResponse where
  content_type_header : Option String
  text : String

/-- The crawler's external world: URL parsing, the network, and HTML parsing. -/
structure WebEnv where
  netloc : String → String
  fetch : String → Option HttpResponse
  page_title : String → Option String
  page_text : String → String
  page_hrefs : String → String → List String

/-- A `DocumentationCrawler`: its start URL and configuration; the field
`allowed_netloc` of the source is the derived value `env.netloc start_url`. -/
structure Crawler where
  start_url : String
  config : CrawlConfig := {}

/-- Method `DocumentationCrawler._url_allowed`: reject when the URL's netloc
differs from the start URL's netloc, when a non-empty allow list has no
matching pattern, or when any deny pattern matches. -/
def url_allowed (c : Crawler) (env : WebEnv) (url : String) : Bool :=
  if env.netloc url ≠ env.netloc c.start_url then false
  else if ¬ c.config.allow_patterns.isEmpty ∧
      ¬ c.config.allow_patterns.any (fun p => p url) then false
  else if c.config.deny_patterns.any (fun p => p url) then false
  else true

/-- Method `DocumentationCrawler._parse_html`: document with the page title,
visible text, content type "text/html" and source metadata, plus the
discovered links — resolved anchor targets that start with "http" and pass
the scope check.  The source collects links into a set, whose iteration
order is arbitrary; duplicates are erased keeping first occurrences as one
deterministic representative of that order. -/
def parse_html (c : Crawler) (env : WebEnv) (url html : String) :
    Document × List String :=
  let links := ((env.page_hrefs url html).filter fun a =>
    a.startsWith "http" && url_allowed c env a).eraseDups
  ({ url := url
     content := env.page_text html
     content_type := "text/html"
     metadata := [("source", url)]
     title := env.page_title html }, links)

/-- Python `response.headers.get("Content-Type", "text/plain").split(";")[0]`. -/
def primary_content_type (header : Option String) : String :=
  ((header.getD "text/plain").splitOn ";").headD ""

/-- The mutable state of `DocumentationCrawler.crawl`: the visited set (kept
as a duplicate-free list), the collected documents, the FIFO queue (front =
next to dequeue), and a ghost log of every URL passed to session.get, used to
state what the crawler fetched. -/
structure CrawlState where
  visited : List String
  docs : List Document
  queue : List String
  fetched : List String
deriving Repr

/-- The fetch-and-dispatch block of the loop body, entered only after the
scope check passed: record the fetch, then on a successful response dispatch
on the primary content type (HTML: append the parsed document and enqueue the
discovered not-yet-visited links; JSON: append the raw document; other types:
nothing). -/
def process_fetched (c : Crawler) (env : WebEnv) (s1 : CrawlState) (url : String) :
    CrawlState :=
  let s2 : CrawlState := { s1 with fetched := s1.fetched ++ [url] }
  match env.fetch url with
  | none => s2
  | some resp =>
    let ct := primary_content_type resp.content_type_header
    if ct.startsWith "text/html" then
      let dl := parse_html c env url resp.text
      { s2 with
        docs := s2.docs ++ [dl.1]
        queue := s2.queue ++ dl.2.filter (fun l => l ∉ s2.visited) }
    else if ct = "application/json" then
      { s2 with docs := s2.docs ++
        [{ url := url, content := resp.text, content_type := ct }] }
    else s2

/-- One iteration of the crawl loop's body (the loop guard is checked by
`crawl_loop`): dequeue, skip if visited, mark visited, scope-check, fetch,
and dispatch on the primary content type. -/
def crawl_step (c : Crawler) (env : WebEnv) (s : CrawlState) : CrawlState :=
  match s.queue with
  | [] => s
  | url :: rest =>
    if url ∈ s.visited then { s with queue := rest }
    else
      let s1 : CrawlState := { s with visited := s.visited ++ [url], queue := rest }
      if ¬ url_allowed c env url then s1
      else process_fetched c env s1 url

/-- The crawl loop: while the queue is non-empty and the visited count is
below the page cap, run one iteration.  The Python loop terminates (every
iteration shrinks the queue or grows the bounded visited set, and enqueued
links stem from the boundedly many processed pages); the fuel only indexes
its iterations so that every intermediate state is quantifiable. -/
def crawl_loop (c : Crawler) (env : WebEnv) : Nat → CrawlState → CrawlState
  | 0, s => s
  | fuel + 1, s =>
    if s.queue.isEmpty ∨ ¬ s.visited.length < c.config.max_pages then s
    else crawl_loop c env fuel (crawl_step c env s)

/-- The initial state of `DocumentationCrawler.crawl`: empty visited set and
document list, the queue seeded with the start URL. -/
def init_state (c : Crawler) : CrawlState :=
  { visited := [], docs := [], queue := [c.start_url], fetched := [] }

/-- Method `DocumentationCrawler.crawl`: run the loop and return the corpus
of collected documents. -/
def crawl (c : Crawler) (env : WebEnv) (fuel : Nat) : Corpus :=
  ⟨(crawl_loop c env fuel (init_state c)).docs⟩

/-! ## Helper lemmas -/

/-- After replacing non-alphanumeric runs, underscore-collapsing is the
identity: the first substitution never emits two adjacent underscores
(both flag phases proved together). -/
lemma collapseAux_subAux (l : List Char) :
    collapseUnderscoresAux false (subNonAlnumAux false l) = subNonAlnumAux false l ∧
    collapseUnderscoresAux true (subNonAlnumAux true l) = subNonAlnumAux true l := by
  induction l with
  | nil => simp [subNonAlnumAux, collapseUnderscoresAux]
  | cons c rest ih =>
    by_cases h : isLowerAlnum c = true
    · have hne : c ≠ '_' := by
        intro hc
        rw [hc] at h
        exact absurd h (by decide)
      constructor <;>
        simp [subNonAlnumAux, h, collapseUnderscoresAux, hne, ih.1]
    · constructor <;>
        simp [subNonAlnumAux, h, collapseUnderscoresAux, ih.2]

/-- The second substitution of `slugify` is redundant on the output of the
first. -/
lemma collapse_sub (l : List Char) :
    collapseUnderscores (subNonAlnum l) = subNonAlnum l :=
  (collapseAux_subAux l).1

/-- The fetch-and-dispatch block never changes the visited set. -/
lemma process_fetched_visited (c : Crawler) (env : WebEnv) (s1 : CrawlState) (url : String) :
    (process_fetched c env s1 url).visited = s1.visited := by
  unfold process_fetched
  cases h : env.fetch url
  · rfl
  · dsimp only
    split
    · rfl
    · split <;> rfl

/-- The fetch-and-dispatch block records exactly one fetch of its URL. -/
lemma process_fetched_fetched (c : Crawler) (env : WebEnv) (s1 : CrawlState) (url : String) :
    (process_fetched c env s1 url).fetched = s1.fetched ++ [url] := by
  unfold process_fetched
  cases h : env.fetch url
  · rfl
  · dsimp only
    split
    · rfl
    · split <;> rfl

/-- One iteration leaves the visited set unchanged or appends one
not-yet-visited URL. -/
lemma crawl_step_visited_eq_or (c : Crawler) (env : WebEnv) (s : CrawlState) :
    (crawl_step c env s).visited = s.visited ∨
    ∃ url, url ∉ s.visited ∧ (crawl_step c env s).visited = s.visited ++ [url] := by
  unfold crawl_step
  cases hq : s.queue with
  | nil => exact Or.inl rfl
  | cons url rest =>
    by_cases hmem : url ∈ s.visited
    · simp only [hmem, if_pos]
      exact Or.inl trivial
    · simp only [hmem, if_neg, not_false_iff]
      split
      · exact Or.inr ⟨url, hmem, rfl⟩
      · exact Or.inr ⟨url, hmem, process_fetched_visited c env _ url⟩

/-- One iteration records no fetch or exactly one fetch of a URL that passed
the scope check. -/
lemma crawl_step_fetched_eq_or (c : Crawler) (env : WebEnv) (s : CrawlState) :
    (crawl_step c env s).fetched = s.fetched ∨
    ∃ url, url_allowed c env url = true ∧
      (crawl_step c env s).fetched = s.fetched ++ [url] := by
  unfold crawl_step
  cases hq : s.queue with
  | nil => exact Or.inl rfl
  | cons url rest =>
    by_cases hmem : url ∈ s.visited
    · simp only [hmem, if_pos]
      exact Or.inl trivial
    · simp only [hmem, if_neg, not_false_iff]
      split
      · exact Or.inl rfl
      · rename_i hallow
        rw [not_not] at hallow
        exact Or.inr ⟨url, hallow, process_fetched_fetched c env _ url⟩

/-- The visited set stays within the page cap and duplicate-free throughout
the loop. -/
lemma crawl_loop_visited_invariant (c : Crawler) (env : WebEnv) (fuel : Nat)
    (s : CrawlState) (hlen : s.visited.length ≤ c.config.max_pages)
    (hnd : s.visited.Nodup) :
    (crawl_loop c env fuel s).visited.length ≤ c.config.max_pages ∧
    (crawl_loop c env fuel s).visited.Nodup := by
  induction fuel generalizing s with
  | zero => exact ⟨hlen, hnd⟩
  | succ n ih =>
    unfold crawl_loop
    split
    · exact ⟨hlen, hnd⟩
    · rename_i hguard
      push_neg at hguard
      rcases crawl_step_visited_eq_or c env s with heq | ⟨url, hmem, heq⟩
      · exact ih _ (heq ▸ hlen) (heq ▸ hnd)
      · refine ih _ ?_ ?_
        · rw [heq]
          simp only [List.length_append, List.length_singleton]
          omega
        · rw [heq]
          simp [List.nodup_append, hnd, hmem]

/-- Every URL in the fetch log passed the scope check, an invariant of the
loop. -/
lemma crawl_loop_fetched_allowed (c : Crawler) (env : WebEnv) (fuel : Nat)
    (s : CrawlState) (h : ∀ u ∈ s.fetched, url_allowed c env u = true) :
    ∀ u ∈ (crawl_loop c env fuel s).fetched, url_allowed c env u = true := by
  induction fuel generalizing s with
  | zero => exact h
  | succ n ih =>
    unfold crawl_loop
    split
    · exact h
    · refine ih _ ?_
      rcases crawl_step_fetched_eq_or c env s with heq | ⟨url, hallow, heq⟩
      · rw [heq]; exact h
      · rw [heq]
        intro u hu
        rcases List.mem_append.mp hu with hu | hu
        · exact h u hu
        · rw [List.mem_singleton.mp hu]
          exact hallow

/-- A URL passing the scope check has the start URL's netloc. -/
lemma url_allowed_netloc (c : Crawler) (env : WebEnv) (url : String)
    (h : url_allowed c env url = true) :
    env.netloc url = env.netloc c.start_url := by
  by_contra hne
  rw [url_allowed, if_pos hne] at h
  exact Bool.false_ne_true h

/-! ## Concrete instances used by witnesses and counterexamples -/

/-- A generation strategy that raises on every prompt. -/
def alwaysFailClient : GenerationStrategy := fun _ => .error "generation failed"

/-- A minimal external world: one host, every fetch fails. -/
def demoEnv : WebEnv :=
  { netloc := fun _ => "docs.example.com"
    fetch := fun _ => none
    page_title := fun _ => none
    page_text := fun _ => ""
    page_hrefs := fun _ _ => [] }

/-- A crawler over `demoEnv` with the default configuration. -/
def demoCrawler : Crawler := { start_url := "http://docs.example.com/a" }

/-- A crawler whose allow list and deny list both match the same URL. -/
def overlapCrawler : Crawler :=
  { start_url := "http://docs.example.com/x"
    config := { allow_patterns := [fun u => u = "http://docs.example.com/x"]
                deny_patterns := [fun u => u = "http://docs.example.com/x"] } }

/-! ## Claims -/

/-- C1: for every generation strategy (however it fails), every document list
and every optional title, `build_blueprint` returns (it is total, so no error
is visible to its caller) and the returned Blueprint has at least one
endpoint; when the strategy-produced endpoint list is empty, the synthetic
health-check EndpointSpec (name health_check, method GET, path slash) is
appended before returning. -/
theorem C1_build_blueprint_total_nonempty (client : GenerationStrategy)
    (documents : List String) (title : Option String) :
    (build_blueprint client documents title).endpoints ≠ [] ∧
    ((generated_blueprint client (build_prompt documents title)).endpoints = [] →
      build_blueprint client documents title =
        { generated_blueprint client (build_prompt documents title) with
          endpoints := [healthCheckEndpoint] }) := by
  have hb : build_blueprint client documents title =
      (if (generated_blueprint client (build_prompt documents title)).endpoints.isEmpty then
        { generated_blueprint client (build_prompt documents title) with
          endpoints := (generated_blueprint client
            (build_prompt documents title)).endpoints ++ [healthCheckEndpoint] }
      else generated_blueprint client (build_prompt documents title)) := rfl
  rw [hb]
  constructor
  · split
    · simp
    · rename_i hne
      simp only [List.isEmpty_iff] at hne
      exact hne
  · intro hempty
    simp [hempty]

set_option maxRecDepth 40000 in
/-- Witness for C1 at a concrete input: an always-failing strategy and an
empty document list, where the heuristic produces no endpoints and the
health-check endpoint is appended. -/
theorem C1_witness :
    (build_blueprint alwaysFailClient [] none).endpoints ≠ [] ∧
    build_blueprint alwaysFailClient [] none =
      { generated_blueprint alwaysFailClient (build_prompt [] none) with
        endpoints := [healthCheckEndpoint] } :=
  ⟨(C1_build_blueprint_total_nonempty alwaysFailClient [] none).1,
   (C1_build_blueprint_total_nonempty alwaysFailClient [] none).2 (by decide)⟩

set_option maxRecDepth 40000 in
/-- C2 counterexample: with an always-failing primary strategy and an empty
document list, the prompt (instruction preamble plus empty documentation)
contains no endpoint-shaped token, so the direct heuristic result has no
endpoints, while `build_blueprint` appends the synthetic health-check
endpoint — the two Blueprints differ. -/
theorem C2_counterexample :
    (∀ p, ∃ e, alwaysFailClient p = Except.error e) ∧
    build_blueprint alwaysFailClient [] none ≠
      HeuristicLLMClient_generate DEFAULT_BLUEPRINT_NAME (build_prompt [] none) :=
  ⟨fun _ => ⟨"generation failed", rfl⟩, by decide⟩

/-- C2 (amended): if every call of the primary strategy raises, then
`build_blueprint` never raises (it is total) and returns exactly the
Blueprint obtained by applying the Heuristic Extractor to the constructed
prompt string — not the raw document text — except that when that
Blueprint's endpoint list is empty the synthetic health-check endpoint is
appended. -/
theorem C2_fallback_refinement (client : GenerationStrategy)
    (documents : List String) (title : Option String)
    (hfail : ∀ p, ∃ e, client p = Except.error e) :
    build_blueprint client documents title =
      (let h := HeuristicLLMClient_generate DEFAULT_BLUEPRINT_NAME
        (build_prompt documents title)
       if h.endpoints.isEmpty then
         { h with endpoints := h.endpoints ++ [healthCheckEndpoint] }
       else h) := by
  obtain ⟨e, he⟩ := hfail (build_prompt documents title)
  simp only [build_blueprint, generated_blueprint]
  rw [he]

/-- Witness for C2 at a concrete input: the always-failing strategy with one
document holding one endpoint token. -/
theorem C2_witness :
    (∀ p, ∃ e, alwaysFailClient p = Except.error e) ∧
    build_blueprint alwaysFailClient ["GET /users"] none =
      (let h := HeuristicLLMClient_generate DEFAULT_BLUEPRINT_NAME
        (build_prompt ["GET /users"] none)
       if h.endpoints.isEmpty then
         { h with endpoints := h.endpoints ++ [healthCheckEndpoint] }
       else h) :=
  ⟨fun _ => ⟨"generation failed", rfl⟩,
   C2_fallback_refinement alwaysFailClient ["GET /users"] none
     (fun _ => ⟨"generation failed", rfl⟩)⟩

/-- C3 counterexample: the client configured by the orchestrator's
constructor when none is injected is not the remote generation client. -/
theorem C3_counterexample : (LLMOrchestrator_client none).isRemote = false := by
  decide

/-- C3 (amended): when the orchestrator is constructed without an injected
generation strategy, its configured primary strategy is a Heuristic Extractor
client with the default blueprint name — not the Remote Generation Client. -/
theorem C3_default_client_is_heuristic :
    LLMOrchestrator_client none = .heuristic DEFAULT_BLUEPRINT_NAME := rfl

/-- C4: for every crawl configuration, start URL and network behaviour, and
at every step of the crawl loop (hence also at its end), the visited list is
duplicate-free and its length — the number of distinct URLs counted as
visited — never exceeds the configured page cap. -/
theorem C4_visited_within_cap (c : Crawler) (env : WebEnv) (fuel : Nat) :
    (crawl_loop c env fuel (init_state c)).visited.Nodup ∧
    (crawl_loop c env fuel (init_state c)).visited.length ≤ c.config.max_pages := by
  have h := crawl_loop_visited_invariant c env fuel (init_state c)
    (by simp [init_state]) (by simp [init_state])
  exact ⟨h.2, h.1⟩

/-- C5: during any crawl, every URL passed to the fetch step passed the scope
check, and in particular its parsed host equals the start URL's parsed host. -/
theorem C5_fetched_same_host (c : Crawler) (env : WebEnv) (fuel : Nat)
    (u : String) (hu : u ∈ (crawl_loop c env fuel (init_state c)).fetched) :
    url_allowed c env u = true ∧ env.netloc u = env.netloc c.start_url := by
  have hall := crawl_loop_fetched_allowed c env fuel (init_state c)
    (by simp [init_state]) u hu
  exact ⟨hall, url_allowed_netloc c env u hall⟩

/-- Witness for C5 at a concrete input: the start URL itself is fetched and
has the start host. -/
theorem C5_witness :
    "http://docs.example.com/a" ∈
      (crawl_loop demoCrawler demoEnv 2 (init_state demoCrawler)).fetched ∧
    (url_allowed demoCrawler demoEnv "http://docs.example.com/a" = true ∧
      demoEnv.netloc "http://docs.example.com/a" =
        demoEnv.netloc demoCrawler.start_url) :=
  ⟨by decide, C5_fetched_same_host demoCrawler demoEnv 2 _ (by decide)⟩

/-- C6: for every pattern sets, a URL matched by at least one allow pattern
and at least one deny pattern fails the scope check — deny takes precedence —
and is never fetched during any crawl. -/
theorem C6_deny_precedence (c : Crawler) (env : WebEnv) (url : String)
    (hallow : c.config.allow_patterns.any (fun p => p url) = true)
    (hdeny : c.config.deny_patterns.any (fun p => p url) = true) :
    url_allowed c env url = false ∧
    ∀ fuel, url ∉ (crawl_loop c env fuel (init_state c)).fetched := by
  have hnotallowed : url_allowed c env url = false := by
    unfold url_allowed
    split
    · rfl
    · split
      · rfl
      · simp [hdeny]
  refine ⟨hnotallowed, fun fuel hmem => ?_⟩
  have := crawl_loop_fetched_allowed c env fuel (init_state c)
    (by simp [init_state]) url hmem
  rw [hnotallowed] at this
  exact Bool.false_ne_true this

/-- Witness for C6 at a concrete input: a URL matching both the allow pattern
and the deny pattern of `overlapCrawler` is rejected and never fetched. -/
theorem C6_witness :
    overlapCrawler.config.allow_patterns.any
      (fun p => p "http://docs.example.com/x") = true ∧
    overlapCrawler.config.deny_patterns.any
      (fun p => p "http://docs.example.com/x") = true ∧
    (url_allowed overlapCrawler demoEnv "http://docs.example.com/x" = false ∧
      ∀ fuel, "http://docs.example.com/x" ∉
        (crawl_loop overlapCrawler demoEnv fuel (init_state overlapCrawler)).fetched) :=
  ⟨by decide, by decide,
   C6_deny_precedence overlapCrawler demoEnv "http://docs.example.com/x"
     (by decide) (by decide)⟩

/-- C7: the remote client's response parser fails on a non-JSON body with the
ValueError carrying the decode error, and on the body holding one endpoint
object with method get and path /x it yields a Blueprint with the generic
default name and summary and exactly one endpoint whose name is the slug of
"get /x", whose method keeps the source casing get, whose path is /x and
whose description defaults to the empty string. -/
theorem C7_parse_response_behaviour :
    parse_response "not json" =
      .error ("Model response is not valid JSON: " ++ "Expecting value") ∧
    parse_response "\x7b\"endpoints\":[\x7b\"method\":\"get\",\"path\":\"/x\"\x7d]\x7d" =
      .ok { name := DEFAULT_BLUEPRINT_NAME
            summary := "Generated MCP server"
            endpoints := [{ name := slugify "get /x", method := "get",
                            path := "/x", description := "" }]
            prerequisites := [] } :=
  ⟨rfl, rfl⟩

/-- C8: on the text listing GET /users, POST /users and DELETE /users/(id),
`extract_endpoints` returns exactly three EndpointSpec entries in order of
appearance, and a literally repeated match is kept twice — no
deduplication. -/
theorem C8_extract_endpoints_in_order :
    extract_endpoints "GET /users POST /users DELETE /users/\x7bid\x7d" =
      [{ name := "get_users", method := "GET", path := "/users",
         description := "Auto-detected endpoint for GET /users" },
       { name := "post_users", method := "POST", path := "/users",
         description := "Auto-detected endpoint for POST /users" },
       { name := "delete_users_id", method := "DELETE", path := "/users/\x7bid\x7d",
         description := "Auto-detected endpoint for DELETE /users/\x7bid\x7d" }] ∧
    extract_endpoints "GET /users GET /users" =
      [{ name := "get_users", method := "GET", path := "/users",
         description := "Auto-detected endpoint for GET /users" },
       { name := "get_users", method := "GET", path := "/users",
         description := "Auto-detected endpoint for GET /users" }] := by
  constructor <;> decide

/-- C9: for every input string, `slugify` agrees with the specification's
description (lowercase, replace each maximal non-alphanumeric run by one
underscore, strip boundary underscores, fall back to the literal endpoint),
and on the concrete input GET /users/(id) it returns get_users_id. -/
theorem C9_slugify_matches_spec :
    (∀ s : String, slugify s = slugify_spec s) ∧
    slugify "GET /users/\x7bid\x7d" = "get_users_id" := by
  refine ⟨fun s => ?_, by decide⟩
  simp only [slugify, slugify_spec, collapse_sub]

/-- C10: the endpoint regex has no word-boundary anchor before the method: on
the input BUDGET /plans, whose only verb occurrence is the trailing substring
GET of BUDGET, `extract_endpoints` returns the non-empty list holding exactly
the endpoint with method GET and path /plans. -/
theorem C10_no_word_boundary :
    extract_endpoints "BUDGET /plans" =
      [{ name := "get_plans", method := "GET", path := "/plans",
         description := "Auto-detected endpoint for GET /plans" }] := by
  decide

end MCPBuilder
